import Mathlib

/-!
Verification development for the `occ` compiler pipeline:
a shallow embedding of `src/parse.c` (recursive-descent parser,
pointer-arithmetic rewriting, stack-layout pass) and `src/codegen.c`
(stack-machine code generator for the expression-only snapshot),
together with theorems settling the specification's claims.

The repository's `type.c` / headers are not present under `src/`;
the type model (constructors, sizes) and the type annotator are
modelled from the spec (sections 3, 4.2 and 8), as noted on each
such definition.
-/

namespace Occ

/-- Modelled from the spec: the type model of the missing `type.c`.
Three constructors (`Int`, `Pointer{base}`, `Array{base, length}`),
per spec section 3. -/
inductive Ty where
  | int : Ty
  | ptr (base : Ty) : Ty
  | array (base : Ty) (len : Nat) : Ty
deriving DecidableEq, Repr

/-- Modelled from the spec: byte sizes of the missing type model.
Spec section 8 fixes `sizeof(int)` to the literal 4; pointers have
size 8; an array has size `length * base.size` (spec section 3). -/
def Ty.size : Ty → Nat
  | .int => 4
  | .ptr _ => 8
  | .array b n => n * b.size

/-- Embeds `type->base` of the C type objects: pointers and arrays expose a
base type, `int` does not. -/
def Ty.base? : Ty → Option Ty
  | .int => none
  | .ptr b => some b
  | .array b _ => some b

/-- Embeds `type->kind == TY_INT` test. -/
def Ty.isInt : Ty → Bool
  | .int => true
  | _ => false

/-- Embeds `type->base != NULL` test (true exactly for pointers and arrays). -/
def Ty.hasBase : Ty → Bool
  | .int => false
  | _ => true

/-- Embeds `type->kind == TY_PTR` test (arrays excluded, as in the C code). -/
def Ty.isPtr : Ty → Bool
  | .ptr _ => true
  | _ => false

/-- A local variable (`Var` in `parse.c`): name and declared type.
The `id` field stands for the identity of the heap-allocated C object,
so that aliasing between each function's `locals` list and the global
`locals` list can be expressed. -/
structure Var where
  id : Nat
  name : String
  ty : Ty
deriving DecidableEq, Repr

/-- Binary node kinds of the parser snapshot (`ND_ADD` .. `ND_ASSIGN`).
`cmpLt`/`cmpGt`/`cmpLe`/`cmpGe` are `ND_LET`/`ND_LAT`/`ND_LEE`/`ND_LAE`. -/
inductive BinKind where
  | add | sub | mul | div
  | eq | ne | cmpLt | cmpGt | cmpLe | cmpGe
  | assign
deriving DecidableEq, Repr

/-- Unary node kinds of the parser snapshot. -/
inductive UnKind where
  | deref | addr | exprStmt | ret
deriving DecidableEq, Repr

/-- AST nodes of `parse.c` (`Node`), one constructor per node kind,
carrying the fields that kind uses. -/
inductive Node where
  | num (v : Int) : Node
  | var (v : Var) : Node
  | bin (k : BinKind) (lhs rhs : Node) : Node
  | una (k : UnKind) (lhs : Node) : Node
  | blk (body : List Node) : Node
  | ifS (cond : Node) (thn : Node) (els : Option Node) : Node
  | whileS (cond : Node) (thn : Node) : Node
  | forS (init : Option Node) (cond : Option Node) (inc : Option Node)
      (thn : Node) : Node
  | funcall (name : String) (args : List Node) : Node

/-- Modelled from the spec: the type annotator (`add_type` of the
missing `type.c`), section 4.2.  Literal nodes are integers, variable
nodes take their declared type, integer arithmetic is integer,
pointer/array plus-minus integer yields the pointer's type,
pointer minus pointer yields integer, comparisons yield integer,
assignment takes the left side's type, dereference exposes the base
type and address-of wraps in a pointer. -/
def nodeType : Node → Option Ty
  | .num _ => some .int
  | .var v => some v.ty
  | .bin .add l r =>
      match nodeType l, nodeType r with
      | some lt, some rt =>
          if lt.isInt && rt.isInt then some .int
          else if lt.hasBase && rt.isInt then some lt
          else if lt.isInt && rt.hasBase then some rt
          else none
      | _, _ => none
  | .bin .sub l r =>
      match nodeType l, nodeType r with
      | some lt, some rt =>
          if lt.isInt && rt.isInt then some .int
          else if lt.hasBase && rt.isInt then some lt
          else if lt.hasBase && rt.hasBase then some .int
          else none
      | _, _ => none
  | .bin .mul l r =>
      match nodeType l, nodeType r with
      | some lt, some rt => if lt.isInt && rt.isInt then some .int else none
      | _, _ => none
  | .bin .div l r =>
      match nodeType l, nodeType r with
      | some lt, some rt => if lt.isInt && rt.isInt then some .int else none
      | _, _ => none
  | .bin .eq l r | .bin .ne l r
  | .bin .cmpLt l r | .bin .cmpGt l r | .bin .cmpLe l r | .bin .cmpGe l r =>
      match nodeType l, nodeType r with
      | some _, some _ => some .int
      | _, _ => none
  | .bin .assign l _ => nodeType l
  | .una .deref l => (nodeType l).bind Ty.base?
  | .una .addr l => (nodeType l).map Ty.ptr
  | .una .exprStmt _ => none
  | .una .ret _ => none
  | .blk _ => none
  | .ifS _ _ _ => none
  | .whileS _ _ => none
  | .forS _ _ _ _ => none
  | .funcall _ _ => some .int

/-- Embeds `new_add_node` of `parse.c` (lines 355-372): the typed `+`
builder.  Both operands are annotated; int+int builds a plain `ADD`;
two based operands (pointer/array) are a fatal "invalid operands"
error; otherwise the right operand is multiplied by the literal 8
before the `ADD` is built.  Fatal errors are `Except.error`. -/
def new_add_node (lhs rhs : Node) : Except String Node :=
  match nodeType lhs, nodeType rhs with
  | some lt, some rt =>
      if lt.isInt && rt.isInt then
        .ok (.bin .add lhs rhs)
      else if lt.hasBase && rt.hasBase then
        .error "invalid operands"
      else
        .ok (.bin .add lhs (.bin .mul rhs (.num 8)))
  | _, _ => .error "operand without a type"

/-- Embeds `new_sub_node` of `parse.c` (lines 374-401): the typed `-`
builder.  int-int builds a plain `SUB`; pointer-int multiplies the
right operand by the literal 8; pointer-pointer builds
`(lhs - rhs) / 8`; every other combination (arrays included) is a
fatal error. -/
def new_sub_node (lhs rhs : Node) : Except String Node :=
  match nodeType lhs, nodeType rhs with
  | some lt, some rt =>
      if lt.isInt && rt.isInt then
        .ok (.bin .sub lhs rhs)
      else if lt.isPtr && rt.isInt then
        .ok (.bin .sub lhs (.bin .mul rhs (.num 8)))
      else if lt.isPtr && rt.isPtr then
        .ok (.bin .div (.bin .sub lhs rhs) (.num 8))
      else
        .error "invalid operand of \"-\""
  | _, _ => .error "operand without a type"

/-- Reference arithmetic semantics for generated expression trees:
numeric nodes are their value, variable nodes read an environment by
variable identity, and `+ - * /` follow the generated instructions
(`idiv` truncates toward zero, which is `Int.tdiv`; division by zero
traps, modelled as `none`).  Used to evaluate the trees the parser
builds on concrete runtime values. -/
def evalNode (env : Nat → Int) : Node → Option Int
  | .num v => some v
  | .var v => some (env v.id)
  | .bin .add l r => do
      let a ← evalNode env l; let b ← evalNode env r; pure (a + b)
  | .bin .sub l r => do
      let a ← evalNode env l; let b ← evalNode env r; pure (a - b)
  | .bin .mul l r => do
      let a ← evalNode env l; let b ← evalNode env r; pure (a * b)
  | .bin .div l r => do
      let a ← evalNode env l
      let b ← evalNode env r
      if b = 0 then none else pure (Int.tdiv a b)
  | _ => none

/-- Token kinds, per the spec's external-interface section: identifier,
integer literal, punctuation/keyword, end-of-stream. -/
inductive TokenKind where
  | ident | num | punct | eof
deriving DecidableEq, Repr

/-- A token: kind, lexeme string and numeric value (`Token` of the
missing tokenizer, as consumed read-only by `parse.c`). -/
structure Token where
  kind : TokenKind
  str : String
  val : Int
deriving DecidableEq, Repr

/-- The parser's mutable state: the token cursor (`current_token`) and
the global `locals` list, plus a counter for fresh variable identities. -/
structure PState where
  toks : List Token
  locals : List Var
  counter : Nat
deriving Repr

/-- Embeds `equal(current_token, op)`: the head token's lexeme matches `op`
exactly. -/
def tokEqual (s : PState) (op : String) : Bool :=
  match s.toks with
  | [] => false
  | t :: _ => t.str == op

/-- Head token kind is `TK_EOF` (an exhausted list counts as the end). -/
def atEof (s : PState) : Bool :=
  match s.toks with
  | [] => true
  | t :: _ => t.kind == .eof

/-- Embeds `consume(op)`: advance past the head token when it matches,
reporting whether it did. -/
def consume (op : String) (s : PState) : Bool × PState :=
  if tokEqual s op then
    (true, ⟨s.toks.tail, s.locals, s.counter⟩)
  else
    (false, s)

/-- Embeds `skip(op)`: require and consume the token, else the fatal
"Not 'op'" error (quotes dropped from the embedded message). -/
def skip (op : String) (s : PState) : Except String PState :=
  match consume op s with
  | (true, s') => .ok s'
  | (false, _) => .error ("Not " ++ op)

/-- Embeds `find_var`: walk the `locals` list and return the first variable
whose name matches the token's lexeme. -/
def find_var (locals : List Var) (tok : Token) : Option Var :=
  match locals with
  | [] => none
  | v :: rest => if v.name == tok.str then some v else find_var rest tok

/-- Embeds `new_lvar`: allocate a variable and prepend it to `locals`. -/
def new_lvar (name : String) (ty : Ty) (s : PState) : Var × PState :=
  let v : Var := ⟨s.counter, name, ty⟩
  (v, ⟨s.toks, v :: s.locals, s.counter + 1⟩)

/-- Embeds `get_number`: the head token must be a numeric literal. -/
def get_number (s : PState) : Except String (Int × PState) :=
  match s.toks with
  | t :: rest =>
      if t.kind == .num then .ok (t.val, ⟨rest, s.locals, s.counter⟩)
      else .error "expected a number"
  | [] => .error "expected a number"

/-- Embeds `typespec`: the single type specifier `int`. -/
def typespec (s : PState) : Except String (Ty × PState) := do
  let s ← skip "int" s
  .ok (Ty.int, s)

/-- Embeds `(n + align - 1) & ~(align - 1)` on 32-bit C `int`s. -/
def align_to (n align : Nat) : Nat :=
  (n + align - 1) &&& ((2 ^ 32 - 1) ^^^ (align - 1))

/-- The `while (consume("*"))` loop of `declarator` on the token
list, wrapping the type in one pointer layer per star. -/
def declarator_stars_go (ty : Ty) : List Token → Ty × List Token
  | t :: rest =>
      if t.str == "*" then declarator_stars_go (Ty.ptr ty) rest
      else (ty, t :: rest)
  | [] => (ty, [])

/-- The `while (consume("*"))` loop of `declarator`, on the parser
state. -/
def declarator_stars (ty : Ty) (s : PState) : Ty × PState :=
  let r := declarator_stars_go ty s.toks
  (r.1, ⟨r.2, s.locals, s.counter⟩)

/-- Embeds `declarator`: stars, an identifier, an optional `[num]` array
suffix; registers the variable (`new_lvar`) and returns its `ND_VAR`
node.  The variable enters the symbol table here, before any
initializer is parsed. -/
def declarator (ty : Ty) (s : PState) : Except String (Node × PState) :=
  let (ty, s) := declarator_stars ty s
  match s.toks with
  | t :: rest =>
      if t.kind == .ident then
        let name := t.str
        let s : PState := ⟨rest, s.locals, s.counter⟩
        (do
          let (ty, s) ←
            if tokEqual s "[" then do
              let s ← skip "[" s
              let (n, s) ← get_number s
              let s ← skip "]" s
              pure (Ty.array ty n.toNat, s)
            else
              pure (ty, s)
          let (v, s) := new_lvar name ty s
          .ok (Node.var v, s))
      else .error "expected a variable name"
  | [] => .error "expected a variable name"

/-- A parsed function (`Function` of `parse.c`): name, parameters,
the full locals list (in reverse declaration order), body and the
frame size filled in by the layout pass. -/
structure Function where
  name : String
  params : List Var
  locals : List Var
  body : Node
  stack_size : Nat

/-- Is the token after the head an opening parenthesis
(`equal(current_token->next, "(")`)? -/
def nextIsLparen : List Token → Bool
  | _ :: t2 :: _ => t2.str == "("
  | _ => false

mutual

/-- Embeds `expr = assign`. -/
def expr (f : Nat) (s : PState) : Except String (Node × PState) :=
  match f with
  | 0 => .error "out of fuel"
  | f + 1 => assign f s

/-- Embeds `assign = equality ("=" assign)?` (right-associative). -/
def assign (f : Nat) (s : PState) : Except String (Node × PState) :=
  match f with
  | 0 => .error "out of fuel"
  | f + 1 => do
      let (n, s) ← equality f s
      match consume "=" s with
      | (true, s) => do
          let (r, s) ← assign f s
          .ok (Node.bin .assign n r, s)
      | (false, s) => .ok (n, s)

/-- Embeds `equality = relational ("==" relational | "!=" relational)*`. -/
def equality (f : Nat) (s : PState) : Except String (Node × PState) :=
  match f with
  | 0 => .error "out of fuel"
  | f + 1 => do
      let (n, s) ← relational f s
      equality_loop f n s

/-- The `for (;;)` accumulation loop of `equality`; the right operand
of each operator is parsed by `relational` (left-associative). -/
def equality_loop (f : Nat) (n : Node) (s : PState) :
    Except String (Node × PState) :=
  match f with
  | 0 => .error "out of fuel"
  | f + 1 =>
      match consume "==" s with
      | (true, s) => do
          let (r, s) ← relational f s
          equality_loop f (.bin .eq n r) s
      | (false, _) =>
          match consume "!=" s with
          | (true, s) => do
              let (r, s) ← relational f s
              equality_loop f (.bin .ne n r) s
          | (false, _) => .ok (n, s)

/-- Embeds `relational`: accumulation over `< > <= >=`. -/
def relational (f : Nat) (s : PState) : Except String (Node × PState) :=
  match f with
  | 0 => .error "out of fuel"
  | f + 1 => do
      let (n, s) ← add f s
      relational_loop f n s

/-- The `for (;;)` loop of `relational`.  As in the source, the right
operand of each comparison is parsed by a recursive call to
`relational` itself (not `add`), although the grammar comment above
the C function says `relational = add ("<" add | ...)*`. -/
def relational_loop (f : Nat) (n : Node) (s : PState) :
    Except String (Node × PState) :=
  match f with
  | 0 => .error "out of fuel"
  | f + 1 =>
      match consume "<" s with
      | (true, s) => do
          let (r, s) ← relational f s
          relational_loop f (.bin .cmpLt n r) s
      | (false, _) =>
          match consume ">" s with
          | (true, s) => do
              let (r, s) ← relational f s
              relational_loop f (.bin .cmpGt n r) s
          | (false, _) =>
              match consume "<=" s with
              | (true, s) => do
                  let (r, s) ← relational f s
                  relational_loop f (.bin .cmpLe n r) s
              | (false, _) =>
                  match consume ">=" s with
                  | (true, s) => do
                      let (r, s) ← relational f s
                      relational_loop f (.bin .cmpGe n r) s
                  | (false, _) => .ok (n, s)

/-- Embeds `add = mul ("+" mul | "-" mul)*`. -/
def add (f : Nat) (s : PState) : Except String (Node × PState) :=
  match f with
  | 0 => .error "out of fuel"
  | f + 1 => do
      let (n, s) ← mul f s
      add_loop f n s

/-- The `for (;;)` loop of `add`, combining through the typed
builders `new_add_node` / `new_sub_node` (left-associative). -/
def add_loop (f : Nat) (n : Node) (s : PState) :
    Except String (Node × PState) :=
  match f with
  | 0 => .error "out of fuel"
  | f + 1 =>
      match consume "+" s with
      | (true, s) => do
          let (r, s) ← mul f s
          let n' ← new_add_node n r
          add_loop f n' s
      | (false, _) =>
          match consume "-" s with
          | (true, s) => do
              let (r, s) ← mul f s
              let n' ← new_sub_node n r
              add_loop f n' s
          | (false, _) => .ok (n, s)

/-- Embeds `mul = unary ("*" unary | "/" unary)*`. -/
def mul (f : Nat) (s : PState) : Except String (Node × PState) :=
  match f with
  | 0 => .error "out of fuel"
  | f + 1 => do
      let (n, s) ← unary f s
      mul_loop f n s

/-- The `for (;;)` loop of `mul` (left-associative). -/
def mul_loop (f : Nat) (n : Node) (s : PState) :
    Except String (Node × PState) :=
  match f with
  | 0 => .error "out of fuel"
  | f + 1 =>
      match consume "*" s with
      | (true, s) => do
          let (r, s) ← unary f s
          mul_loop f (.bin .mul n r) s
      | (false, _) =>
          match consume "/" s with
          | (true, s) => do
              let (r, s) ← unary f s
              mul_loop f (.bin .div n r) s
          | (false, _) => .ok (n, s)

/-- Embeds `unary = ("+" | "-" | "*" | "&") unary | "sizeof" unary | primary`.
The `sizeof` branch annotates its operand and reduces, already at
parse time, to a numeric literal holding the operand type's byte
size. -/
def unary (f : Nat) (s : PState) : Except String (Node × PState) :=
  match f with
  | 0 => .error "out of fuel"
  | f + 1 =>
      match consume "+" s with
      | (true, s) => unary f s
      | (false, _) =>
          match consume "-" s with
          | (true, s) => do
              let (n, s) ← unary f s
              .ok (Node.bin .sub (.num 0) n, s)
          | (false, _) =>
              match consume "*" s with
              | (true, s) => do
                  let (n, s) ← unary f s
                  .ok (Node.una .deref n, s)
              | (false, _) =>
                  match consume "&" s with
                  | (true, s) => do
                      let (n, s) ← unary f s
                      .ok (Node.una .addr n, s)
                  | (false, _) =>
                      match consume "sizeof" s with
                      | (true, s) => do
                          let (n, s) ← unary f s
                          match nodeType n with
                          | some t => .ok (Node.num t.size, s)
                          | none => .error "operand without a type"
                      | (false, _) => primary f s

/-- Embeds `func_args`: comma-separated argument expressions up to `)`. -/
def func_args (f : Nat) (s : PState) : Except String (List Node × PState) :=
  match f with
  | 0 => .error "out of fuel"
  | f + 1 =>
      if tokEqual s ")" then .ok ([], s)
      else do
        let (n, s) ← expr f s
        let (ns, s) ← func_args_rest f s
        .ok (n :: ns, s)

/-- Continuation of the `func_args` loop: each further argument is
preceded by a required comma. -/
def func_args_rest (f : Nat) (s : PState) :
    Except String (List Node × PState) :=
  match f with
  | 0 => .error "out of fuel"
  | f + 1 =>
      if tokEqual s ")" then .ok ([], s)
      else do
        let s ← skip "," s
        let (n, s) ← expr f s
        let (ns, s) ← func_args_rest f s
        .ok (n :: ns, s)

/-- Embeds `primary = "(" expr ")" | ident ("(" func_args? ")")? | num`.
An identifier followed by `(` is a call; otherwise it must resolve in
the `locals` list or parsing aborts with "undefined variable". -/
def primary (f : Nat) (s : PState) : Except String (Node × PState) :=
  match f with
  | 0 => .error "out of fuel"
  | f + 1 =>
      match consume "(" s with
      | (true, s) => do
          let (n, s) ← expr f s
          let s ← skip ")" s
          .ok (n, s)
      | (false, _) =>
          match s.toks with
          | t :: rest =>
              if t.kind == .ident then
                if nextIsLparen s.toks then do
                  let s : PState := ⟨rest, s.locals, s.counter⟩
                  let s ← skip "(" s
                  let (args, s) ← func_args f s
                  let s ← skip ")" s
                  .ok (Node.funcall t.str args, s)
                else
                  match find_var s.locals t with
                  | none => .error "undefined variable"
                  | some v => .ok (Node.var v, ⟨rest, s.locals, s.counter⟩)
              else if t.kind == .num then
                .ok (Node.num t.val, ⟨rest, s.locals, s.counter⟩)
              else .error "unexpected token"
          | [] => .error "unexpected token"

/-- Embeds `declaration = typespec declarator ("=" expr)? ";"`.  The
declarator has already registered the variable before the optional
initializer expression is parsed. -/
def declaration (f : Nat) (s : PState) : Except String (Node × PState) :=
  match f with
  | 0 => .error "out of fuel"
  | f + 1 => do
      let (ty, s) ← typespec s
      let (vn, s) ← declarator ty s
      match consume "=" s with
      | (true, s) => do
          let (e, s) ← expr f s
          let s ← skip ";" s
          .ok (Node.una .exprStmt (.bin .assign vn e), s)
      | (false, _) => do
          let s ← skip ";" s
          .ok (Node.una .exprStmt vn, s)

/-- Embeds `stmt`: return, if, for, while, block, or expression statement.
In the `for` header a non-empty initializer clause is parsed by
`declaration` (which requires the `int` keyword); the condition and
increment clauses are parsed by `expr`. -/
def stmt (f : Nat) (s : PState) : Except String (Node × PState) :=
  match f with
  | 0 => .error "out of fuel"
  | f + 1 =>
      match consume "return" s with
      | (true, s) => do
          let (e, s) ← expr f s
          let s ← skip ";" s
          .ok (Node.una .ret e, s)
      | (false, _) =>
          match consume "if" s with
          | (true, s) => do
              let s ← skip "(" s
              let (c, s) ← expr f s
              let s ← skip ")" s
              let (t, s) ← stmt f s
              match consume "else" s with
              | (true, s) => do
                  let (e, s) ← stmt f s
                  .ok (Node.ifS c t (some e), s)
              | (false, _) => .ok (Node.ifS c t none, s)
          | (false, _) =>
              match consume "for" s with
              | (true, s) => do
                  let s ← skip "(" s
                  let (ini, s) ←
                    if tokEqual s ";" then do
                      let s ← skip ";" s
                      pure ((none : Option Node), s)
                    else do
                      let (d, s) ← declaration f s
                      pure (some d, s)
                  let (cond, s) ←
                    if tokEqual s ";" then pure ((none : Option Node), s)
                    else do
                      let (c, s) ← expr f s
                      pure (some c, s)
                  let s ← skip ";" s
                  let (inc, s) ←
                    if tokEqual s ")" then pure ((none : Option Node), s)
                    else do
                      let (e, s) ← expr f s
                      pure (some (Node.una .exprStmt e), s)
                  let s ← skip ")" s
                  let (body, s) ← stmt f s
                  .ok (Node.forS ini cond inc body, s)
              | (false, _) =>
                  match consume "while" s with
                  | (true, s) => do
                      let s ← skip "(" s
                      let (c, s) ← expr f s
                      let s ← skip ")" s
                      let (b, s) ← stmt f s
                      .ok (Node.whileS c b, s)
                  | (false, _) =>
                      match consume "\x7b" s with
                      | (true, s) => do
                          let (body, s) ← compound_stmt f s
                          let s ← skip "\x7d" s
                          .ok (Node.blk body, s)
                      | (false, _) => do
                          let (e, s) ← expr f s
                          let s ← skip ";" s
                          .ok (Node.una .exprStmt e, s)

/-- Embeds `compound_stmt = (declaration | stmt)*`, up to the closing `}`.
A leading `int` keyword selects `declaration`.  (The `add_type(cur)`
call of the source only fills in type annotations, which this
embedding computes on demand via `nodeType`, so it has no counterpart
here.) -/
def compound_stmt (f : Nat) (s : PState) :
    Except String (List Node × PState) :=
  match f with
  | 0 => .error "out of fuel"
  | f + 1 =>
      if tokEqual s "\x7d" then .ok ([], s)
      else do
        let (n, s) ←
          if tokEqual s "int" then declaration f s
          else stmt f s
        let (ns, s) ← compound_stmt f s
        .ok (n :: ns, s)

/-- Embeds `func_params = typespec declarator ("," typespec declarator)*`,
up to the closing `)`; each declarator registers a parameter in
`locals`. -/
def func_params (f : Nat) (s : PState) : Except String PState :=
  match f with
  | 0 => .error "out of fuel"
  | f + 1 =>
      if tokEqual s ")" then .ok s
      else do
        let (ty, s) ← typespec s
        let (_, s) ← declarator ty s
        func_params_rest f s

/-- Continuation of the `func_params` loop: further parameters each
require a preceding comma. -/
def func_params_rest (f : Nat) (s : PState) : Except String PState :=
  match f with
  | 0 => .error "out of fuel"
  | f + 1 =>
      if tokEqual s ")" then .ok s
      else do
        let s ← skip "," s
        let (ty, s) ← typespec s
        let (_, s) ← declarator ty s
        func_params_rest f s

/-- Embeds `funcdef`: resets the global `locals` list, parses the return
type specifier, name, parameters and body, and records the `locals`
list (parameters and body locals) in the `Function`.  `stack_size`
stays 0 until the layout pass. -/
def funcdef (f : Nat) (s : PState) : Except String (Function × PState) :=
  match f with
  | 0 => .error "out of fuel"
  | f + 1 => do
      let s : PState := ⟨s.toks, [], s.counter⟩
      let (_, s) ← typespec s
      match s.toks with
      | t :: rest => do
          let name := t.str
          let s : PState := ⟨rest, s.locals, s.counter⟩
          let s ← skip "(" s
          let s ← func_params f s
          let params := s.locals
          let s ← skip ")" s
          let s ← skip "\x7b" s
          let (body, s) ← compound_stmt f s
          let localsAll := s.locals
          let s ← skip "\x7d" s
          .ok (⟨name, params, localsAll, Node.blk body, 0⟩, s)
      | [] => .error "unexpected end of input"

/-- The `while (current_token->kind != TK_EOF)` loop of `program`,
collecting function definitions. -/
def parse_funcdefs (f : Nat) (s : PState) :
    Except String (List Function × PState) :=
  match f with
  | 0 => .error "out of fuel"
  | f + 1 =>
      if atEof s then .ok ([], s)
      else do
        let (fn, s) ← funcdef f s
        let (fns, s) ← parse_funcdefs f s
        .ok (fn :: fns, s)

end

/-- The offset-assignment walk of `program` (lines 134-138): starting
from the 32-byte callee-saved-register reservation, each variable of
the walked list gets `offset += size; var->offset = offset`.  Returns
the per-variable offsets (keyed by variable identity, standing for
the writes through the aliased `Var` objects) and the final running
offset. -/
def assign_offsets : List Var → Nat → List (Nat × Nat) × Nat
  | [], offset => ([], offset)
  | v :: rest, offset =>
      let offset := offset + v.ty.size
      let (m, fin) := assign_offsets rest offset
      ((v.id, offset) :: m, fin)

/-- Embeds `program = funcdef*` followed by the layout pass: for every
parsed function the single shared `locals` list (whatever it holds
after the last `funcdef`) is walked from offset 32, and the
function's `stack_size` becomes the final offset rounded up to 16.
Only variables aliased by that shared list receive offsets. -/
def program (f : Nat) (s : PState) :
    Except String (List Function × List (Nat × Nat) × PState) := do
  let (fns, s) ← parse_funcdefs f s
  let (omap, fin) := assign_offsets s.locals 32
  .ok (fns.map (fun fn => ⟨fn.name, fn.params, fn.locals, fn.body,
        align_to fin 16⟩), omap, s)

/-- Embeds `parse`: run `program` and require the cursor to rest on the
end-of-stream token. -/
def parse (f : Nat) (toks : List Token) :
    Except String (List Function × List (Nat × Nat) × PState) := do
  let r ← program f ⟨toks, [], 0⟩
  if atEof r.2.2 then .ok r else .error "extra token"

/-! Token constructors used by concrete instances: keyword/punctuation,
identifier, numeric literal, and the end-of-stream sentinel. -/

/-- A punctuation or keyword token. -/
def pt (x : String) : Token := ⟨.punct, x, 0⟩

/-- An identifier token. -/
def idt (x : String) : Token := ⟨.ident, x, 0⟩

/-- A numeric-literal token. -/
def numt (v : Int) : Token := ⟨.num, toString v, v⟩

/-- The end-of-stream token. -/
def eoft : Token := ⟨.eof, "", 0⟩

namespace CG

/-!
Embedding of `src/codegen.c` (the expression-only snapshot): nodes
have kinds `ND_NUM`, `ND_LVAR` (carrying a frame offset), `ND_ASSIGN`
and the arithmetic/comparison binaries; `gen` emits instructions for
an implicit operand stack.
-/

/-- The binary operator kinds of the second `switch` in `gen`. -/
inductive CBin where
  | add | sub | mul | div
  | eq | ne | cmpLt | cmpGt | cmpLe | cmpGe
deriving DecidableEq, Repr

/-- AST nodes of the codegen snapshot. -/
inductive CNode where
  | num (v : Int) : CNode
  | lvar (offset : Int) : CNode
  | assign (lhs rhs : CNode) : CNode
  | binop (k : CBin) (lhs rhs : CNode) : CNode
deriving DecidableEq, Repr

/-- The two registers `gen` pushes and pops. -/
inductive Reg where
  | rax | rdi
deriving DecidableEq, Repr

/-- The emitted instructions, one constructor per distinct `printf`
line of `codegen.c`. -/
inductive Instr where
  | pushImm (v : Int) : Instr
  | pushReg (r : Reg) : Instr
  | popReg (r : Reg) : Instr
  | movRaxRbp : Instr
  | subRaxImm (n : Int) : Instr
  | loadRaxMemRax : Instr
  | storeMemRaxRdi : Instr
  | addRaxRdi : Instr
  | subRaxRdi : Instr
  | imulRaxRdi : Instr
  | cqo : Instr
  | idivRdi : Instr
  | cmpRaxRdi : Instr
  | cmpRdiRax : Instr
  | sete : Instr
  | setne : Instr
  | setl : Instr
  | setle : Instr
  | movzbRaxAl : Instr
deriving DecidableEq, Repr

/-- Net operand-stack contribution of one instruction: pushes are
`+1`, pops are `-1`, everything else leaves the stack depth alone. -/
def instrDelta : Instr → Int
  | .pushImm _ => 1
  | .pushReg _ => 1
  | .popReg _ => -1
  | _ => 0

/-- Net operand-stack effect of an instruction sequence. -/
def stackDelta (is : List Instr) : Int :=
  (is.map instrDelta).sum

/-- Embeds `gen_lvar`: push the variable's address (`rbp - offset`); any
non-`ND_LVAR` node is the fatal "expected a variable" error. -/
def gen_lvar : CNode → Except String (List Instr)
  | .lvar off => .ok [.movRaxRbp, .subRaxImm off, .pushReg .rax]
  | _ => .error "expected a variable"

/-- The opcode lines of the second `switch` in `gen`, per operator.
`ND_LAT`/`ND_LAE` compare `rdi` against `rax` (operands reversed),
division sign-extends with `cqo` before the wide `idiv`. -/
def genBinOps : CBin → List Instr
  | .add => [.addRaxRdi]
  | .sub => [.subRaxRdi]
  | .mul => [.imulRaxRdi]
  | .div => [.cqo, .idivRdi]
  | .eq => [.cmpRaxRdi, .sete, .movzbRaxAl]
  | .ne => [.cmpRaxRdi, .setne, .movzbRaxAl]
  | .cmpGt => [.cmpRdiRax, .setl, .movzbRaxAl]
  | .cmpLt => [.cmpRaxRdi, .setl, .movzbRaxAl]
  | .cmpGe => [.cmpRdiRax, .setle, .movzbRaxAl]
  | .cmpLe => [.cmpRaxRdi, .setle, .movzbRaxAl]

/-- Embeds `gen`: literals push their value; a variable reference pushes its
address then replaces it by the loaded value; an assignment pushes the
left side's address, generates the right side, stores and re-pushes
the value; a binary operator generates both children, pops right then
left, applies its opcode and pushes the result. -/
def gen : CNode → Except String (List Instr)
  | .num v => .ok [.pushImm v]
  | .lvar off => do
      let a ← gen_lvar (.lvar off)
      .ok (a ++ [.popReg .rax, .loadRaxMemRax, .pushReg .rax])
  | .assign l r => do
      let a ← gen_lvar l
      let b ← gen r
      .ok (a ++ b ++ [.popReg .rdi, .popReg .rax, .storeMemRaxRdi,
            .pushReg .rdi])
  | .binop k l r => do
      let a ← gen l
      let b ← gen r
      .ok (a ++ b ++ [.popReg .rdi, .popReg .rax] ++ genBinOps k
            ++ [.pushReg .rax])

end CG

/-! Concrete variables and token lists used by the claim instances. -/

/-- A variable `p` of type `int*`. -/
def pVar : Var := ⟨0, "p", .ptr .int⟩

/-- A variable `q` of type `int*`. -/
def qVar : Var := ⟨1, "q", .ptr .int⟩

/-- A variable `a` of type `int[2]`. -/
def arrVar : Var := ⟨2, "a", .array .int 2⟩

/-- An environment in which `p` holds address 112 and `q` holds
address 100 — two `int*` values differing by 12 bytes. -/
def env112 : Nat → Int := fun i => if i = 0 then 112 else 100

/-- Locals for the `sizeof` instances: `int x; int *sp; int sa[3];`. -/
def sizeofLocals : List Var :=
  [⟨0, "x", .int⟩, ⟨1, "sp", .ptr .int⟩, ⟨2, "sa", .array .int 3⟩]

end Occ

namespace Occ

/-- C1 counterexample.  At the concrete input `p + 5` with
`p : int*`, the integer operand is multiplied by the literal 8,
although the pointee type `int` has size 4; at `1 + p` the
multiplication lands on the pointer operand, not the integer one;
and `a - 1` for an array `a` is a fatal error instead of a scaled
subtraction.  So the integer operand is not, in general, scaled by
the pointee size. -/
theorem new_add_node_scales_by_8_counterexample :
    new_add_node (.var pVar) (.num 5)
      = .ok (.bin .add (.var pVar) (.bin .mul (.num 5) (.num 8)))
    ∧ pVar.ty.base? = some Ty.int ∧ Ty.int.size = 4 ∧ (8 : Int) ≠ 4
    ∧ new_add_node (.num 1) (.var pVar)
      = .ok (.bin .add (.num 1) (.bin .mul (.var pVar) (.num 8)))
    ∧ new_sub_node (.var arrVar) (.num 1) = .error "invalid operand of \"-\"" :=
  ⟨rfl, rfl, rfl, by decide, rfl, rfl⟩

/-- C1 (corrected).  Whenever exactly one operand of `+` is
pointer- or array-typed and the other is an integer, `new_add_node`
multiplies the right operand by the constant 8 — regardless of the
pointee size and regardless of which side the pointer is on; when
the left operand is the pointer, the annotated result type is the
pointer's type.  For `-`, only pointer-minus-integer is scaled (again
right operand times 8, typed as the pointer); array-minus-integer is
a fatal error. -/
theorem new_add_node_scales_by_8 :
    (∀ lhs rhs bt, nodeType lhs = some (.ptr bt) → nodeType rhs = some .int →
        new_add_node lhs rhs = .ok (.bin .add lhs (.bin .mul rhs (.num 8)))
        ∧ nodeType (.bin .add lhs (.bin .mul rhs (.num 8))) = some (.ptr bt))
    ∧ (∀ lhs rhs bt n,
        nodeType lhs = some (.array bt n) → nodeType rhs = some .int →
        new_add_node lhs rhs = .ok (.bin .add lhs (.bin .mul rhs (.num 8))))
    ∧ (∀ lhs rhs bt, nodeType lhs = some .int → nodeType rhs = some (.ptr bt) →
        new_add_node lhs rhs = .ok (.bin .add lhs (.bin .mul rhs (.num 8))))
    ∧ (∀ lhs rhs bt, nodeType lhs = some (.ptr bt) → nodeType rhs = some .int →
        new_sub_node lhs rhs = .ok (.bin .sub lhs (.bin .mul rhs (.num 8)))
        ∧ nodeType (.bin .sub lhs (.bin .mul rhs (.num 8))) = some (.ptr bt))
    ∧ (∀ lhs rhs bt n,
        nodeType lhs = some (.array bt n) → nodeType rhs = some .int →
        new_sub_node lhs rhs = .error "invalid operand of \"-\"") := by
  refine ⟨?_, ?_, ?_, ?_, ?_⟩ <;>
    intro lhs rhs bt
  case _ =>
    intro h1 h2
    constructor
    · simp [new_add_node, h1, h2, Ty.isInt, Ty.hasBase]
    · simp [nodeType, h1, h2, Ty.isInt, Ty.hasBase]
  case _ =>
    intro n h1 h2
    simp [new_add_node, h1, h2, Ty.isInt, Ty.hasBase]
  case _ =>
    intro h1 h2
    simp [new_add_node, h1, h2, Ty.isInt, Ty.hasBase]
  case _ =>
    intro h1 h2
    constructor
    · simp [new_sub_node, h1, h2, Ty.isInt, Ty.isPtr]
    · simp [nodeType, h1, h2, Ty.isInt, Ty.hasBase]
  case _ =>
    intro n h1 h2
    simp [new_sub_node, h1, h2, Ty.isInt, Ty.isPtr]

/-- C1 witness: the amended statement applied at `p + 5`. -/
theorem new_add_node_scales_by_8_witness :
    new_add_node (.var pVar) (.num 5)
      = .ok (.bin .add (.var pVar) (.bin .mul (.num 5) (.num 8)))
    ∧ nodeType (.bin .add (.var pVar) (.bin .mul (.num 5) (.num 8)))
      = some (.ptr .int) :=
  new_add_node_scales_by_8.1 (.var pVar) (.num 5) .int rfl rfl

/-- C2 counterexample.  For `p - q` with both operands `int*` and
runtime byte difference 12, the generated tree divides by the
constant 8, so it evaluates to 1, not to the element distance 3. -/
theorem ptr_sub_division_counterexample :
    new_sub_node (.var pVar) (.var qVar)
      = .ok (.bin .div (.bin .sub (.var pVar) (.var qVar)) (.num 8))
    ∧ env112 pVar.id - env112 qVar.id = 12
    ∧ evalNode env112 (.bin .div (.bin .sub (.var pVar) (.var qVar)) (.num 8))
      = some 1
    ∧ (1 : Int) ≠ 3 :=
  ⟨rfl, rfl, rfl, by decide⟩

/-- C2 (corrected).  Subtraction of two pointer-typed operands builds
the byte difference divided by the constant 8 (the pointer size, not
the element size), annotated with integer type; for two `int*` values
differing by 12 bytes the result is therefore 1. -/
theorem ptr_sub_divides_by_8 :
    ∀ lhs rhs t1 t2,
      nodeType lhs = some (.ptr t1) → nodeType rhs = some (.ptr t2) →
      new_sub_node lhs rhs = .ok (.bin .div (.bin .sub lhs rhs) (.num 8))
      ∧ nodeType (.bin .div (.bin .sub lhs rhs) (.num 8)) = some .int := by
  intro lhs rhs t1 t2 h1 h2
  constructor
  · simp [new_sub_node, h1, h2, Ty.isInt, Ty.isPtr]
  · simp [nodeType, h1, h2, Ty.isInt, Ty.hasBase]

/-- C2 witness: the amended statement applied at `p - q`, plus its
evaluation at a 12-byte difference. -/
theorem ptr_sub_divides_by_8_witness :
    (new_sub_node (.var pVar) (.var qVar)
      = .ok (.bin .div (.bin .sub (.var pVar) (.var qVar)) (.num 8))
     ∧ nodeType (.bin .div (.bin .sub (.var pVar) (.var qVar)) (.num 8))
      = some .int)
    ∧ evalNode env112 (.bin .div (.bin .sub (.var pVar) (.var qVar)) (.num 8))
      = some 1 :=
  ⟨ptr_sub_divides_by_8 (.var pVar) (.var qVar) .int .int rfl rfl, rfl⟩

/-- C4.  At the failing input `1 < 2 < 3` the relational level
produces the right-nested tree `1 < (2 < 3)`, because `relational`
parses its right operand with a recursive call to itself instead of
`add` (contradicting the grammar comment in the source); the
equality, additive and multiplicative levels are left-associative as
documented, shown at `1 == 2 != 3`, `1 + 2 + 3` and `8 / 4 / 2`. -/
theorem relational_right_associates :
    relational 20 ⟨[numt 1, pt "<", numt 2, pt "<", numt 3, eoft], [], 0⟩
      = .ok (.bin .cmpLt (.num 1) (.bin .cmpLt (.num 2) (.num 3)),
             ⟨[eoft], [], 0⟩)
    ∧ equality 20 ⟨[numt 1, pt "==", numt 2, pt "!=", numt 3, eoft], [], 0⟩
      = .ok (.bin .ne (.bin .eq (.num 1) (.num 2)) (.num 3), ⟨[eoft], [], 0⟩)
    ∧ add 20 ⟨[numt 1, pt "+", numt 2, pt "+", numt 3, eoft], [], 0⟩
      = .ok (.bin .add (.bin .add (.num 1) (.num 2)) (.num 3), ⟨[eoft], [], 0⟩)
    ∧ mul 20 ⟨[numt 8, pt "/", numt 4, pt "/", numt 2, eoft], [], 0⟩
      = .ok (.bin .div (.bin .div (.num 8) (.num 4)) (.num 2),
             ⟨[eoft], [], 0⟩) :=
  ⟨rfl, rfl, rfl, rfl⟩

/-- C5.  Adding two based (pointer- or array-typed) operands is the
fatal "invalid operands" type error, and a whole statement `p + q;`
over two `int*` locals aborts with that error rather than compiling. -/
theorem ptr_plus_ptr_invalid_operands :
    (∀ lhs rhs lt rt, nodeType lhs = some lt → nodeType rhs = some rt →
        lt.hasBase = true → rt.hasBase = true →
        new_add_node lhs rhs = .error "invalid operands")
    ∧ stmt 30 ⟨[idt "p", pt "+", idt "q", pt ";", eoft], [qVar, pVar], 2⟩
        = .error "invalid operands" := by
  constructor
  · intro lhs rhs lt rt h1 h2 hb1 hb2
    have hi1 : lt.isInt = false := by cases lt <;> simp_all [Ty.hasBase, Ty.isInt]
    simp [new_add_node, h1, h2, hi1, hb1, hb2]
  · rfl

/-- C5 witness: the universally quantified part applied at
`p + p` with `p : int*`. -/
theorem ptr_plus_ptr_invalid_operands_witness :
    new_add_node (.var pVar) (.var pVar) = .error "invalid operands" :=
  ptr_plus_ptr_invalid_operands.1 (.var pVar) (.var pVar)
    (.ptr .int) (.ptr .int) rfl rfl rfl rfl

/-- C6.  Whatever follows a `sizeof` keyword, a successful parse of
the `unary` production returns a numeric-literal node (the folding
happens at parse time, and the parser's `Node` type has no `sizeof`
kind that could reach code generation); concretely, over locals
`int x; int *sp; int sa[3];`, `sizeof x` folds to the literal 4,
`sizeof sp` to 8, and `sizeof sa` to 12 = 3 * 4. -/
theorem sizeof_folds_to_literal :
    (∀ f rest L c n s',
        unary f ⟨pt "sizeof" :: rest, L, c⟩ = .ok (n, s') →
        ∃ v, n = Node.num v)
    ∧ unary 20 ⟨[pt "sizeof", idt "x", eoft], sizeofLocals, 3⟩
        = .ok (.num 4, ⟨[eoft], sizeofLocals, 3⟩)
    ∧ unary 20 ⟨[pt "sizeof", idt "sp", eoft], sizeofLocals, 3⟩
        = .ok (.num 8, ⟨[eoft], sizeofLocals, 3⟩)
    ∧ unary 20 ⟨[pt "sizeof", idt "sa", eoft], sizeofLocals, 3⟩
        = .ok (.num 12, ⟨[eoft], sizeofLocals, 3⟩) := by
  refine ⟨?_, rfl, rfl, rfl⟩
  intro f rest L c n s' h
  match f with
  | 0 => simp [unary] at h
  | f + 1 =>
    have h' : (Except.bind (unary f ⟨rest, L, c⟩) (fun r =>
        match r with
        | (n1, s1) =>
          match nodeType n1 with
          | some t => Except.ok (Node.num (t.size : Int), s1)
          | none => Except.error "operand without a type"))
        = Except.ok (n, s') := h
    rcases hu : unary f ⟨rest, L, c⟩ with e | ⟨n1, s1⟩ <;>
      rw [hu] at h' <;> simp only [Except.bind] at h'
    · cases h'
    · rcases ht : nodeType n1 with _ | t <;> rw [ht] at h' <;>
        simp only [Except.ok.injEq, Prod.mk.injEq] at h'
      · cases h'
      · exact ⟨t.size, h'.1.symm⟩

/-- C6 witness: the universally quantified part applied at the
concrete input `sizeof x`. -/
theorem sizeof_folds_to_literal_witness :
    ∃ v, Node.num 4 = Node.num v :=
  sizeof_folds_to_literal.1 20 [idt "x", eoft] sizeofLocals 3
    (.num 4) ⟨[eoft], sizeofLocals, 3⟩ sizeof_folds_to_literal.2.1

/-- C8.  A successful `find_var` lookup returns the unique first
match in list order: the list splits into a prefix with no matching
name, the returned variable, and a suffix (where any duplicate
declaration of the name sits, never returned).  Since `new_lvar`
prepends, a variable whose name matches the head of `locals` is
resolved to that head, whatever declarations follow — so with two
declarations of one name, every lookup resolves to the same fixed
one and the other is inaccessible. -/
theorem find_var_first_match_wins :
    (∀ locals tok v, find_var locals tok = some v →
        ∃ pre post, locals = pre ++ v :: post ∧ v.name = tok.str
          ∧ ∀ u ∈ pre, u.name ≠ tok.str)
    ∧ (∀ (v : Var) locals tok, v.name = tok.str →
        find_var (v :: locals) tok = some v) := by
  constructor
  · intro locals tok
    induction locals with
    | nil => intro v h; simp [find_var] at h
    | cons w rest ih =>
      intro v h
      by_cases hw : w.name = tok.str
      · rw [find_var, if_pos (by simp [hw])] at h
        obtain rfl : w = v := by injection h
        exact ⟨[], rest, rfl, hw, by simp⟩
      · rw [find_var, if_neg (by simp [hw])] at h
        obtain ⟨pre, post, he, hn, hp⟩ := ih v h
        refine ⟨w :: pre, post, by simp [he], hn, ?_⟩
        intro u hu
        rcases List.mem_cons.mp hu with rfl | hu
        · exact hw
        · exact hp u hu
  · intro v locals tok hv
    simp [find_var, hv]

/-- C8 witness: the first-match statement applied to a list in which
`x` is declared twice (`⟨4, x, int*⟩` was prepended by the later
declaration); lookup returns the later declaration and the earlier
`⟨3, x, int⟩` is in the suffix, never returned. -/
theorem find_var_first_match_wins_witness :
    find_var [⟨4, "x", .ptr .int⟩, ⟨3, "x", .int⟩] (idt "x")
      = some ⟨4, "x", .ptr .int⟩
    ∧ ∃ pre post,
        [(⟨4, "x", .ptr .int⟩ : Var), ⟨3, "x", .int⟩]
          = pre ++ (⟨4, "x", .ptr .int⟩ : Var) :: post
        ∧ (Var.mk 4 "x" (.ptr .int)).name = (idt "x").str
        ∧ ∀ u ∈ pre, u.name ≠ (idt "x").str :=
  ⟨rfl, find_var_first_match_wins.1 _ (idt "x") _ rfl⟩

/-- C9.  Parsing `int x = x;` succeeds: the declarator registers `x`
(as a side effect, before the initializer is read), so the
initializer's reference to `x` resolves to the variable being
declared, yielding `x = x`.  By contrast, referencing `x` with no
prior registration is the fatal "undefined variable" error. -/
theorem self_referential_initializer_parses :
    declaration 20 ⟨[pt "int", idt "x", pt "=", idt "x", pt ";", eoft], [], 0⟩
      = .ok (.una .exprStmt
               (.bin .assign (.var ⟨0, "x", .int⟩) (.var ⟨0, "x", .int⟩)),
             ⟨[eoft], [⟨0, "x", .int⟩], 1⟩)
    ∧ primary 20 ⟨[idt "x", eoft], [], 0⟩ = .error "undefined variable" :=
  ⟨rfl, rfl⟩

set_option maxHeartbeats 2000000 in
/-- C10.  In a `for` statement a non-empty initializer clause is
parsed by `declaration`, whose `typespec` demands the keyword `int`:
the plain expression initializer in `for (i = 0; 1; 2) {}` aborts
with the fatal skip error on `int`, while `for (int i = 0; 1; 2) {}`
parses, its condition and increment clauses read as plain
expressions. -/
theorem for_init_must_be_declaration :
    stmt 16 ⟨[pt "for", pt "(", idt "i", pt "=", numt 0, pt ";",
              numt 1, pt ";", numt 2, pt ")", pt "\x7b", pt "\x7d", eoft], [], 0⟩
      = .error "Not int"
    ∧ stmt 16 ⟨[pt "for", pt "(", pt "int", idt "i", pt "=", numt 0, pt ";",
                numt 1, pt ";", numt 2, pt ")", pt "\x7b", pt "\x7d", eoft], [], 0⟩
      = .ok (.forS
               (some (.una .exprStmt
                 (.bin .assign (.var ⟨0, "i", .int⟩) (.num 0))))
               (some (.num 1))
               (some (.una .exprStmt (.num 2)))
               (.blk []),
             ⟨[eoft], [⟨0, "i", .int⟩], 1⟩) :=
  ⟨rfl, rfl⟩

namespace CG

/-- Splitting the net stack effect over concatenation. -/
theorem stackDelta_append (a b : List Instr) :
    stackDelta (a ++ b) = stackDelta a + stackDelta b := by
  simp [stackDelta]

/-- A successful `gen_lvar` pushes exactly one value (the address). -/
theorem gen_lvar_delta (n : CNode) (is : List Instr)
    (h : gen_lvar n = .ok is) : stackDelta is = 1 := by
  cases n <;> simp [gen_lvar] at h
  subst h; rfl

/-- The opcode lines of a binary operator neither push nor pop. -/
theorem genBinOps_delta (k : CBin) : stackDelta (genBinOps k) = 0 := by
  cases k <;> rfl

end CG

/-- C7.  For every expression node the code generator accepts, the
emitted sequence has a net stack effect of exactly one push: literals
push their value (shown exactly), variable loads and assignments
re-push one value, and binary operators pop two operands and push one
result; division emits the sign-extending `cqo` before the wide
`idiv`. -/
theorem gen_net_stack_effect_one :
    (∀ n is, CG.gen n = .ok is → CG.stackDelta is = 1)
    ∧ (∀ v, CG.gen (.num v) = .ok [.pushImm v])
    ∧ CG.genBinOps .div = [.cqo, .idivRdi] := by
  refine ⟨?_, fun v => rfl, rfl⟩
  intro n
  induction n with
  | num v =>
      intro is h
      simp [CG.gen] at h
      subst h; rfl
  | lvar off =>
      intro is h
      simp [CG.gen, CG.gen_lvar, bind, Except.bind] at h
      subst h; rfl
  | assign l r ihl ihr =>
      intro is h
      simp only [CG.gen, bind, Except.bind] at h
      rcases ha : CG.gen_lvar l with e | a <;> rw [ha] at h
      · cases h
      · rcases hb : CG.gen r with e | b <;> rw [hb] at h
        · cases h
        · simp only [Except.ok.injEq] at h
          subst h
          have h1 := CG.gen_lvar_delta l a ha
          have h2 := ihr b hb
          rw [CG.stackDelta_append, CG.stackDelta_append, h1, h2]
          decide
  | binop k l r ihl ihr =>
      intro is h
      simp only [CG.gen, bind, Except.bind] at h
      rcases ha : CG.gen l with e | a <;> rw [ha] at h
      · cases h
      · rcases hb : CG.gen r with e | b <;> rw [hb] at h
        · cases h
        · simp only [Except.ok.injEq] at h
          subst h
          have h1 := ihl a ha
          have h2 := ihr b hb
          have h3 := CG.genBinOps_delta k
          rw [CG.stackDelta_append, CG.stackDelta_append,
            CG.stackDelta_append, CG.stackDelta_append, h1, h2, h3]
          decide

/-- C7 witness: the net-effect statement applied at the concrete node
`x = 5` (an assignment to the variable at offset 8), whose emitted
sequence indeed has net effect one. -/
theorem gen_net_stack_effect_one_witness :
    CG.stackDelta [.movRaxRbp, .subRaxImm 8, .pushReg .rax, .pushImm 5,
      .popReg .rdi, .popReg .rax, .storeMemRaxRdi, .pushReg .rdi] = 1 :=
  gen_net_stack_effect_one.1 (.assign (.lvar 8) (.num 5)) _ rfl

/-- A successful `skip` only advances the token cursor; the `locals`
list is untouched. -/
theorem skip_locals (op : String) (s s' : PState)
    (h : skip op s = .ok s') : s'.locals = s.locals := by
  by_cases ht : tokEqual s op
  · simp only [skip, consume, if_pos ht] at h
    injection h with h
    subst h; rfl
  · simp only [skip, consume, if_neg ht] at h
    cases h

/-- After a successful `funcdef`, the global `locals` list is exactly
the list the function recorded in its `locals` field — they alias. -/
theorem funcdef_locals (f : Nat) (s : PState) (fn : Function)
    (s' : PState) (h : funcdef f s = .ok (fn, s')) :
    s'.locals = fn.locals := by
  match f with
  | 0 => exact absurd h (by simp [funcdef])
  | f + 1 =>
    simp only [funcdef, bind, Except.bind] at h
    repeat' split at h
    all_goals try cases h
    exact skip_locals _ _ _ (by assumption)

/-- Parsing an empty function list (immediate end of stream) leaves
the state unchanged. -/
theorem parse_funcdefs_nil (f : Nat) (s s' : PState)
    (h : parse_funcdefs f s = .ok ([], s')) : s' = s := by
  match f with
  | 0 => exact absurd h (by simp [parse_funcdefs])
  | f + 1 =>
    simp only [parse_funcdefs, bind, Except.bind] at h
    by_cases he : atEof s
    · rw [if_pos he] at h
      injection h with h
      injection h with h1 h2
      exact h2.symm
    · rw [if_neg he] at h
      repeat' split at h
      all_goals try cases h

/-- After the `funcdef*` loop, the shared `locals` list is the last
parsed function's locals list. -/
theorem parse_funcdefs_last_locals (f : Nat) :
    ∀ (s : PState) fns s' fl, parse_funcdefs f s = .ok (fns, s') →
      fns.getLast? = some fl → s'.locals = fl.locals := by
  induction f with
  | zero =>
      intro s fns s' fl h _
      exact absurd h (by simp [parse_funcdefs])
  | succ f ih =>
      intro s fns s' fl h hl
      simp only [parse_funcdefs, bind, Except.bind] at h
      by_cases he : atEof s
      · rw [if_pos he] at h
        injection h with h
        injection h with h1 h2
        subst h1
        simp at hl
      · rw [if_neg he] at h
        repeat' split at h
        all_goals try cases h
        rename_i x1 v1 h1 x2 v2 h2
        obtain ⟨fn, s1⟩ := v1
        obtain ⟨fns1, s2⟩ := v2
        cases fns1 with
        | nil =>
            have hs : s2 = s1 := parse_funcdefs_nil f s1 s2 h2
            simp only [List.getLast?_singleton, Option.some.injEq] at hl
            rw [← hl, hs]
            exact funcdef_locals f s fn s1 h1
        | cons g rest =>
            rw [List.getLast?_cons_cons] at hl
            exact ih s1 (g :: rest) s2 fl h2 hl

/-- Mapping over a list maps its optional last element. -/
theorem getLast?_map_fn (g : Function → Function) (l : List Function) :
    (l.map g).getLast? = Option.map g l.getLast? := by
  induction l with
  | nil => rfl
  | cons a l ih =>
      cases l with
      | nil => rfl
      | cons b l => simpa [List.getLast?_cons_cons] using ih

/-- Every offset recorded by the layout walk is at least the starting
offset (the walk assigns `offset += size` before recording, and sizes
are nonnegative). -/
theorem assign_offsets_le (l : List Var) :
    ∀ (base : Nat) p, p ∈ (assign_offsets l base).1 → base ≤ p.2 := by
  induction l with
  | nil => intro base p hp; simp [assign_offsets] at hp
  | cons v rest ih =>
      intro base p hp
      simp only [assign_offsets] at hp
      rcases hm : assign_offsets rest (base + v.ty.size) with ⟨m, fin⟩
      rw [hm] at hp
      rcases List.mem_cons.mp hp with rfl | hp2
      · simp
      · have := ih (base + v.ty.size) p (by rw [hm]; exact hp2)
        omega

/-- C3.  After all functions are parsed, the layout pass walks the
single shared `locals` list — which at that point holds exactly the
last-parsed function's locals — once per function: the recorded
offsets are precisely the walk of the last function's locals starting
after the 32-byte callee-saved-register reservation (so every offset
is at least 32, and no variable of any earlier function receives
one), and every function's `stack_size` is the walk's final offset
rounded up to a 16-byte boundary by `align_to`. -/
theorem layout_walks_shared_locals :
    ∀ f s fns omap s' fl,
      program f s = .ok (fns, omap, s') →
      fns.getLast? = some fl →
      omap = (assign_offsets fl.locals 32).1
      ∧ (∀ fn ∈ fns,
           fn.stack_size = align_to (assign_offsets fl.locals 32).2 16)
      ∧ (∀ p ∈ omap, 32 ≤ p.2) := by
  intro f s fns omap s' fl h hl
  simp only [program, bind, Except.bind] at h
  repeat' split at h
  all_goals try cases h
  rename_i x1 v h1
  obtain ⟨fns0, s1⟩ := v
  rw [getLast?_map_fn] at hl
  rcases h3 : fns0.getLast? with _ | fl0 <;> rw [h3] at hl
  · cases hl
  simp only [Option.map_some', Option.some.injEq] at hl
  have hloc : s1.locals = fl0.locals :=
    parse_funcdefs_last_locals f s fns0 s1 fl0 h1 h3
  have hfl : fl.locals = fl0.locals := by rw [← hl]
  refine ⟨?_, ?_, ?_⟩
  · rw [hfl, ← hloc]
  · intro fn hfn
    rcases List.mem_map.mp hfn with ⟨fn0, _, rfl⟩
    rw [hfl, ← hloc]
  · intro p hp
    exact assign_offsets_le s1.locals 32 p hp

/-- Tokens of the two-function program
`int f() { int a; } int g() { int b; int c; }`. -/
def c3Toks : List Token :=
  [pt "int", idt "f", pt "(", pt ")", pt "\x7b", pt "int", idt "a", pt ";",
   pt "\x7d",
   pt "int", idt "g", pt "(", pt ")", pt "\x7b", pt "int", idt "b", pt ";",
   pt "int", idt "c", pt ";", pt "\x7d", eoft]

/-- The first parsed function `f`, with its local `a` (identity 0). -/
def c3FnF : Function :=
  ⟨"f", [], [⟨0, "a", .int⟩],
   .blk [.una .exprStmt (.var ⟨0, "a", .int⟩)], 48⟩

/-- The last parsed function `g`, with locals `c, b`
(identities 2, 1, in reverse declaration order). -/
def c3FnG : Function :=
  ⟨"g", [], [⟨2, "c", .int⟩, ⟨1, "b", .int⟩],
   .blk [.una .exprStmt (.var ⟨1, "b", .int⟩),
         .una .exprStmt (.var ⟨2, "c", .int⟩)], 48⟩

/-- C3 witness: the layout statement applied to the two-function
program.  The offset map is the walk of `g`'s locals only (offsets
36 and 40, both past the 32-byte reservation); `f`'s local `a`
(identity 0) receives no offset; both functions get `stack_size`
48 = `align_to 40 16`, a multiple of 16 at least the final offset. -/
theorem layout_walks_shared_locals_witness :
    program 12 ⟨c3Toks, [], 0⟩
      = .ok ([c3FnF, c3FnG], [(2, 36), (1, 40)],
             ⟨[eoft], [⟨2, "c", .int⟩, ⟨1, "b", .int⟩], 3⟩)
    ∧ ([(2, 36), (1, 40)] = (assign_offsets c3FnG.locals 32).1
       ∧ (∀ fn ∈ [c3FnF, c3FnG],
            fn.stack_size = align_to (assign_offsets c3FnG.locals 32).2 16)
       ∧ (∀ p ∈ [((2 : Nat), (36 : Nat)), (1, 40)], 32 ≤ p.2))
    ∧ (assign_offsets c3FnG.locals 32).2 = 40
    ∧ align_to 40 16 = 48 ∧ 48 % 16 = 0 ∧ (40 : Nat) ≤ 48
    ∧ (∀ p ∈ [((2 : Nat), (36 : Nat)), (1, 40)], p.1 ≠ 0) := by
  have hp : program 12 ⟨c3Toks, [], 0⟩
      = .ok ([c3FnF, c3FnG], [(2, 36), (1, 40)],
             ⟨[eoft], [⟨2, "c", .int⟩, ⟨1, "b", .int⟩], 3⟩) := by rfl
  exact ⟨hp,
    layout_walks_shared_locals 12 ⟨c3Toks, [], 0⟩ [c3FnF, c3FnG]
      [(2, 36), (1, 40)] ⟨[eoft], [⟨2, "c", .int⟩, ⟨1, "b", .int⟩], 3⟩
      c3FnG hp rfl,
    rfl, rfl, by decide, by decide, by decide⟩

end Occ
